import Mathlib

/-!
Verification of the booking core of the plumhouse guesthouse backend.

This file gives a shallow embedding of the booking flow implemented in
`src/services/booking.service.ts` (availability checking, guest booking
creation, payment initialization, webhook-driven payment reconciliation,
admin update/delete) and of the public calendar query
`getRoomAvailability` from `src/services/room.service.ts`, and proves
the specified properties about these operations.

Modelling conventions:
* Database date-times (`TIMESTAMP`) are integer epoch milliseconds (`Int`),
  compared exactly as Prisma compares them with `lt` / `gt` / `gte`.
* The store is an explicit `DB` value threaded through each operation;
  a Prisma call that throws is an `Except.error` paired with the state
  the thrown call leaves behind (a `$transaction` rolls back to the
  state at entry; a bare call outside a transaction keeps prior writes).
* `Room.price` (a database double) is modelled as an exact rational.
* The external pieces — the HMAC-SHA512 hex digest, JSON serialization
  of the webhook body, and the Paystack `transaction/initialize` call —
  are parameters of the operations that use them, so theorems hold for
  every behaviour of those collaborators.
-/

namespace Plumhouse

/-- The `PaymentStatus` enum of the Prisma schema. -/
inductive PaymentStatus where
  | PENDING
  | PAID
  | CANCELLED
  | FAILED
deriving DecidableEq, Repr

/-- A row of the `Booking` table (Prisma schema `Booking`). -/
structure Booking where
  id : Nat
  bookingId : String
  status : PaymentStatus
  paymentReference : Option String
  roomId : Nat
  guestName : String
  guestEmail : String
  guestPhone : String
  checkIn : Int
  checkOut : Int
  adults : Nat
  children : Nat
  createdAt : Int
deriving DecidableEq, Repr

/-- The fields of a `Room` row that the booking core reads. -/
structure Room where
  id : Nat
  price : ℚ
deriving DecidableEq, Repr

/-- The relational store seen by the booking core: the `Booking` table,
the `Room` table (read-only here) and the auto-increment counter that
assigns `Booking.id` (`SERIAL`). -/
structure DB where
  bookings : List Booking
  rooms : List Room
  nextId : Nat
deriving DecidableEq, Repr

/-- Shape of a guest booking request (`ICreateBooking` in
`src/types/booking.types.ts`): it has no `status` field, so inserts built
from it take the schema default status `PENDING`. -/
structure ICreateBooking where
  roomId : Nat
  guestName : String
  guestEmail : String
  guestPhone : String
  checkIn : Int
  checkOut : Int
  adults : Nat
  children : Nat
deriving DecidableEq, Repr

/-- Shape of an admin update (`IUpdateBookingByAdmin`): every guest field
optional, no `roomId`, no `status`. -/
structure IUpdateBookingByAdmin where
  guestName : Option String := none
  guestEmail : Option String := none
  guestPhone : Option String := none
  checkIn : Option Int := none
  checkOut : Option Int := none
  adults : Option Nat := none
  children : Option Nat := none
deriving DecidableEq, Repr

/-- Error outcomes of the booking core, one per `throw` site of
`booking.service.ts` (the design notes name them as a tagged taxonomy). -/
inductive BookingError where
  | Conflict
  | RoomNotFound
  | IntegrationFailure
  | InvalidSignature
  | UnknownReference (reference : String)
  | RaceLost
  | BookingNotFound
deriving DecidableEq, Repr

/-- The `findMany` of `checkAvailability`: bookings of the room whose
status is `PAID` and whose interval satisfies
`existing.checkIn < candidate.checkOut AND existing.checkOut > candidate.checkIn`. -/
def conflictingBookings (db : DB) (roomId : Nat) (checkIn checkOut : Int) :
    List Booking :=
  db.bookings.filter fun b =>
    decide (b.roomId = roomId) && decide (b.status = PaymentStatus.PAID)
      && decide (b.checkIn < checkOut) && decide (b.checkOut > checkIn)

/-- `checkAvailability` from `booking.service.ts`: true iff no `PAID`
booking of the room overlaps the candidate half-open range. It is a pure
read (in the source it only runs a `findMany`). -/
def checkAvailability (db : DB) (roomId : Nat) (checkIn checkOut : Int) : Bool :=
  decide ((conflictingBookings db roomId checkIn checkOut).length = 0)

/-- The row written by `booking.create` for a guest request: fresh serial
`id`, caller-supplied public `bookingId` (the cuid), schema-default
status `PENDING`, no payment reference yet, `createdAt` from the clock. -/
def insertBooking (details : ICreateBooking) (newBookingId : String) (now : Int)
    (db : DB) : Booking × DB :=
  let b : Booking :=
    { id := db.nextId
      bookingId := newBookingId
      status := PaymentStatus.PENDING
      paymentReference := none
      roomId := details.roomId
      guestName := details.guestName
      guestEmail := details.guestEmail
      guestPhone := details.guestPhone
      checkIn := details.checkIn
      checkOut := details.checkOut
      adults := details.adults
      children := details.children
      createdAt := now }
  (b, { db with bookings := db.bookings ++ [b], nextId := db.nextId + 1 })

/-- `createGuestBooking`: inside one transaction, check availability and
either throw `Conflict` (rolling back, so the state is unchanged) or
insert the booking (whose status is the schema default `PENDING`). -/
def createGuestBooking (details : ICreateBooking) (newBookingId : String)
    (now : Int) (db : DB) : Except BookingError Booking × DB :=
  if checkAvailability db details.roomId details.checkIn details.checkOut then
    (Except.ok (insertBooking details newBookingId now db).1,
      (insertBooking details newBookingId now db).2)
  else
    (Except.error BookingError.Conflict, db)

/-- Milliseconds per day, the `1000 * 3600 * 24` of `initializePayment`. -/
def msPerDay : Int := 1000 * 3600 * 24

/-- `Math.ceil((checkOutDate.getTime() - checkInDate.getTime()) / (1000*3600*24))`. -/
def nights (checkIn checkOut : Int) : Int :=
  Int.ceil ((((checkOut - checkIn) : Int) : ℚ) / ((msPerDay : Int) : ℚ))

/-- `Math.round(nights * room.price * 100)` — JavaScript `Math.round`
rounds halves toward positive infinity, as does Mathlib `round`. -/
def amountInKobo (checkIn checkOut : Int) (price : ℚ) : Int :=
  round (((nights checkIn checkOut : Int) : ℚ) * price * 100)

/-- `initializePayment`: availability check, room lookup
(`findUniqueOrThrow`), amount computation, insert of a `PENDING` booking,
then the external Paystack initialize call (a parameter `paystackInit`
taking the amount); on gateway success the returned reference is stored
on the booking and the authorization url returned. Each write is a
separate call (no surrounding transaction), so a gateway failure leaves
the already-inserted `PENDING` booking in place. -/
def initializePayment (details : ICreateBooking) (newBookingId : String)
    (now : Int) (paystackInit : Int → Except Unit (String × String))
    (db : DB) : Except BookingError String × DB :=
  if checkAvailability db details.roomId details.checkIn details.checkOut then
    match db.rooms.find? (fun r => decide (r.id = details.roomId)) with
    | none => (Except.error BookingError.RoomNotFound, db)
    | some room =>
      match paystackInit (amountInKobo details.checkIn details.checkOut room.price) with
      | Except.error _ =>
        (Except.error BookingError.IntegrationFailure,
          (insertBooking details newBookingId now db).2)
      | Except.ok handle =>
        (Except.ok handle.1,
          { (insertBooking details newBookingId now db).2 with
            bookings :=
              (insertBooking details newBookingId now db).2.bookings.map fun b =>
                if b.id = (insertBooking details newBookingId now db).1.id then
                  { b with paymentReference := some handle.2 }
                else b })
  else
    (Except.error BookingError.Conflict, db)

/-- The `data` object of a Paystack webhook body, as the service reads it. -/
structure WebhookData where
  reference : String
deriving DecidableEq, Repr

/-- A Paystack webhook body: an event name and a data object. -/
structure WebhookBody where
  event : String
  data : WebhookData
deriving DecidableEq, Repr

/-- `verifyPaymentAndUpdateBooking`: recompute the HMAC-SHA512 hex digest
of the serialized body with the shared secret and reject on mismatch;
for a `charge.success` event look the booking up by payment reference,
re-run the availability check, and either mark the booking `FAILED` and
raise the race-lost error, or mark it `PAID` and return it. Any other
event is ignored (the source returns `undefined`). The digest and the
serialization are parameters (`hmacSha512Hex`, `jsonStringify`). -/
def verifyPaymentAndUpdateBooking (hmacSha512Hex : String → String → String)
    (jsonStringify : WebhookBody → String) (paystackSecretKey : String)
    (signature : String) (body : WebhookBody) (db : DB) :
    Except BookingError (Option Booking) × DB :=
  if hmacSha512Hex paystackSecretKey (jsonStringify body) ≠ signature then
    (Except.error BookingError.InvalidSignature, db)
  else if body.event = "charge.success" then
    match db.bookings.find?
        (fun b => decide (b.paymentReference = some body.data.reference)) with
    | none => (Except.error (BookingError.UnknownReference body.data.reference), db)
    | some booking =>
      if checkAvailability db booking.roomId booking.checkIn booking.checkOut = false then
        (Except.error BookingError.RaceLost,
          { db with
            bookings := db.bookings.map fun b =>
              if b.id = booking.id then { b with status := PaymentStatus.FAILED }
              else b })
      else
        (Except.ok (some { booking with status := PaymentStatus.PAID }),
          { db with
            bookings := db.bookings.map fun b =>
              if b.id = booking.id then { b with status := PaymentStatus.PAID }
              else b })
  else
    (Except.ok none, db)

/-- Application of an admin update to one row: each supplied field
replaces the stored one, absent fields are kept. -/
def applyAdminUpdate (d : IUpdateBookingByAdmin) (b : Booking) : Booking :=
  { b with
    guestName := d.guestName.getD b.guestName
    guestEmail := d.guestEmail.getD b.guestEmail
    guestPhone := d.guestPhone.getD b.guestPhone
    checkIn := d.checkIn.getD b.checkIn
    checkOut := d.checkOut.getD b.checkOut
    adults := d.adults.getD b.adults
    children := d.children.getD b.children }

/-- `updateBookingByAdmin`: unconditional `booking.update` by numeric id
(throws if the id does not exist); no availability check of any kind. -/
def updateBookingByAdmin (id : Nat) (d : IUpdateBookingByAdmin) (db : DB) :
    Except BookingError Booking × DB :=
  match db.bookings.find? (fun b => decide (b.id = id)) with
  | none => (Except.error BookingError.BookingNotFound, db)
  | some b =>
    (Except.ok (applyAdminUpdate d b),
      { db with
        bookings := db.bookings.map fun x =>
          if x.id = id then applyAdminUpdate d x else x })

/-- `deleteBookingByAdmin`: unconditional `booking.delete` by numeric id. -/
def deleteBookingByAdmin (id : Nat) (db : DB) :
    Except BookingError Booking × DB :=
  match db.bookings.find? (fun b => decide (b.id = id)) with
  | none => (Except.error BookingError.BookingNotFound, db)
  | some b =>
    (Except.ok b, { db with bookings := db.bookings.filter fun x => decide (x.id ≠ id) })

/-- `getRoomAvailability` from `room.service.ts`: the
`(checkIn, checkOut)` pairs of every booking of the room whose
`checkOut` is at or after the current time — with no status filter. -/
def getRoomAvailability (db : DB) (now : Int) (id : Nat) : List (Int × Int) :=
  (db.bookings.filter fun b => decide (b.roomId = id) && decide (now ≤ b.checkOut)).map
    fun b => (b.checkIn, b.checkOut)

/-- Half-open interval overlap, the relation of the core invariant. -/
def overlapping (ci1 co1 ci2 co2 : Int) : Prop :=
  ci1 < co2 ∧ co1 > ci2

instance (ci1 co1 ci2 co2 : Int) : Decidable (overlapping ci1 co1 ci2 co2) :=
  inferInstanceAs (Decidable (ci1 < co2 ∧ co1 > ci2))

/-- The core contract over a list of booking rows: any two distinct
`PAID` bookings of one room have non-overlapping intervals. -/
def paidNonOverlapList (l : List Booking) : Prop :=
  ∀ b1 ∈ l, ∀ b2 ∈ l,
    b1.id ≠ b2.id → b1.roomId = b2.roomId →
    b1.status = PaymentStatus.PAID → b2.status = PaymentStatus.PAID →
    ¬ overlapping b1.checkIn b1.checkOut b2.checkIn b2.checkOut

instance (l : List Booking) : Decidable (paidNonOverlapList l) :=
  inferInstanceAs (Decidable (∀ b1 ∈ l, ∀ b2 ∈ l,
    b1.id ≠ b2.id → b1.roomId = b2.roomId →
    b1.status = PaymentStatus.PAID → b2.status = PaymentStatus.PAID →
    ¬ overlapping b1.checkIn b1.checkOut b2.checkIn b2.checkOut))

/-- The core contract: for any room, the `PAID` bookings have pairwise
non-overlapping `[checkIn, checkOut)` intervals. -/
def paidNonOverlap (db : DB) : Prop :=
  paidNonOverlapList db.bookings

instance (db : DB) : Decidable (paidNonOverlap db) :=
  inferInstanceAs (Decidable (paidNonOverlapList db.bookings))

/-- Store well-formedness maintained by the serial primary key: booking
ids are pairwise distinct and below the auto-increment counter. -/
def wfDB (db : DB) : Prop :=
  (db.bookings.map Booking.id).Nodup ∧ ∀ b ∈ db.bookings, b.id < db.nextId

instance (db : DB) : Decidable (wfDB db) :=
  inferInstanceAs (Decidable
    ((db.bookings.map Booking.id).Nodup ∧ ∀ b ∈ db.bookings, b.id < db.nextId))

theorem checkAvailability_eq_true_iff (db : DB) (roomId : Nat) (ci co : Int) :
    checkAvailability db roomId ci co = true ↔
      ∀ b ∈ db.bookings, b.roomId = roomId → b.status = PaymentStatus.PAID →
        ¬ (b.checkIn < co ∧ b.checkOut > ci) := by
  simp only [checkAvailability, conflictingBookings, decide_eq_true_eq,
    List.length_eq_zero, List.filter_eq_nil_iff, Bool.and_eq_true]
  constructor
  · intro h b hb hroom hstatus hover
    exact h b hb ⟨⟨⟨hroom, hstatus⟩, hover.1⟩, hover.2⟩
  · intro h b hb hp
    exact h b hb hp.1.1.1 hp.1.1.2 ⟨hp.1.2, hp.2⟩

/-- A store with one `PAID` booking on room 1 over `[0, 5)`. -/
def dbOnePaid : DB :=
  { bookings :=
      [{ id := 1, bookingId := "bk1", status := PaymentStatus.PAID,
         paymentReference := some "ref1", roomId := 1, guestName := "Ada",
         guestEmail := "ada@mail", guestPhone := "070", checkIn := 0,
         checkOut := 5, adults := 1, children := 0, createdAt := 0 }]
    rooms := [{ id := 1, price := 100 }]
    nextId := 2 }

/-- **C5**: `checkAvailability(roomId, checkIn, checkOut)` returns true
iff no `PAID` booking of the room satisfies
`existing.checkIn < checkOut AND existing.checkOut > checkIn` (it is a
pure read, taking the store as an argument and returning only a
boolean); in particular a candidate range that exactly abuts every
`PAID` booking of the room is reported available. -/
theorem checkAvailability_correct (db : DB) (roomId : Nat) (ci co : Int)
    (hrange : ci < co) :
    (checkAvailability db roomId ci co = true ↔
       ∀ b ∈ db.bookings, b.roomId = roomId → b.status = PaymentStatus.PAID →
         ¬ (b.checkIn < co ∧ b.checkOut > ci)) ∧
    ((∀ b ∈ db.bookings, b.roomId = roomId → b.status = PaymentStatus.PAID →
         (b.checkOut = ci ∨ b.checkIn = co)) →
       checkAvailability db roomId ci co = true) := by
  refine ⟨checkAvailability_eq_true_iff db roomId ci co, fun habut => ?_⟩
  rw [checkAvailability_eq_true_iff]
  intro b hb hroom hstatus hover
  rcases habut b hb hroom hstatus with h | h
  · exact absurd hover.2 (by omega)
  · exact absurd hover.1 (by omega)

/-- Witness for C5: a candidate `[5, 10)` exactly abutting the `PAID`
booking `[0, 5)` of `dbOnePaid` is reported available. -/
theorem checkAvailability_correct_witness :
    (5 : Int) < 10 ∧ checkAvailability dbOnePaid 1 5 10 = true :=
  ⟨by decide, (checkAvailability_correct dbOnePaid 1 5 10 (by decide)).2 (by decide)⟩

/-- Appending a booking that is not `PAID` changes no availability check. -/
theorem checkAvailability_append_nonpaid (db db2 : DB) (nb : Booking)
    (hbk : db2.bookings = db.bookings ++ [nb])
    (hnp : nb.status ≠ PaymentStatus.PAID) (roomId : Nat) (ci co : Int) :
    checkAvailability db2 roomId ci co = checkAvailability db roomId ci co := by
  unfold checkAvailability conflictingBookings
  rw [hbk, List.filter_append]
  simp [hnp]

/-- A demo HMAC stand-in used to instantiate the collaborator parameters. -/
def hmacDemo (secret text : String) : String :=
  secret ++ "|" ++ text

/-- A demo serialization stand-in for `JSON.stringify` of a webhook body. -/
def stringifyDemo (body : WebhookBody) : String :=
  body.event ++ "," ++ body.data.reference

/-- **C6**: whatever the payload contains, if the supplied signature
differs from the keyed hash of the serialized payload computed with the
shared secret, `verifyPaymentAndUpdateBooking` rejects with
`InvalidSignature` and the store is returned unchanged — no payload
field influences the outcome. -/
theorem invalid_signature_rejected (hmacSha512Hex : String → String → String)
    (jsonStringify : WebhookBody → String) (secret signature : String)
    (body : WebhookBody) (db : DB)
    (hsig : hmacSha512Hex secret (jsonStringify body) ≠ signature) :
    verifyPaymentAndUpdateBooking hmacSha512Hex jsonStringify secret signature body db
      = (Except.error BookingError.InvalidSignature, db) := by
  unfold verifyPaymentAndUpdateBooking
  rw [if_pos hsig]

/-- Witness for C6: a mismatched signature on an otherwise valid-looking
`charge.success` payload is rejected and `dbOnePaid` is untouched. -/
theorem invalid_signature_rejected_witness :
    hmacDemo "sk" (stringifyDemo ⟨"charge.success", ⟨"ref1"⟩⟩) ≠ "bad" ∧
    verifyPaymentAndUpdateBooking hmacDemo stringifyDemo "sk" "bad"
        ⟨"charge.success", ⟨"ref1"⟩⟩ dbOnePaid
      = (Except.error BookingError.InvalidSignature, dbOnePaid) :=
  ⟨by decide,
   invalid_signature_rejected hmacDemo stringifyDemo "sk" "bad"
     ⟨"charge.success", ⟨"ref1"⟩⟩ dbOnePaid (by decide)⟩

/-- A store holding a single `PENDING` booking on room 1 over `[2, 9)`. -/
def dbPendingHold : DB :=
  { bookings :=
      [{ id := 1, bookingId := "bk1", status := PaymentStatus.PENDING,
         paymentReference := none, roomId := 1, guestName := "Ada",
         guestEmail := "ada@mail", guestPhone := "070", checkIn := 2,
         checkOut := 9, adults := 1, children := 0, createdAt := 0 }]
    rooms := [{ id := 1, price := 100 }]
    nextId := 2 }

/-- **C10**: `getRoomAvailability(id)` returns the `(checkIn, checkOut)`
pair of exactly those bookings of room `id` whose `checkOut` is at or
after the current time, with no status filter — and so (second part) a
`PENDING` hold shows up as a booked range on the public calendar even
though `checkAvailability` reports the very same range as free. -/
theorem getRoomAvailability_all_statuses :
    (∀ (db : DB) (now : Int) (id : Nat) (p : Int × Int),
       p ∈ getRoomAvailability db now id ↔
         ∃ b ∈ db.bookings, b.roomId = id ∧ now ≤ b.checkOut ∧
           p = (b.checkIn, b.checkOut)) ∧
    (getRoomAvailability dbPendingHold 0 1 = [(2, 9)] ∧
       checkAvailability dbPendingHold 1 2 9 = true) := by
  constructor
  · intro db now id p
    simp only [getRoomAvailability, List.mem_map, List.mem_filter,
      Bool.and_eq_true, decide_eq_true_eq]
    constructor
    · rintro ⟨b, ⟨hb, hroom, hout⟩, rfl⟩
      exact ⟨b, hb, hroom, hout, rfl⟩
    · rintro ⟨b, hb, hroom, hout, rfl⟩
      exact ⟨b, ⟨hb, hroom, hout⟩, rfl⟩
  · exact ⟨by decide, by decide⟩

/-- A guest request for room 1 over `[5, 10)`. -/
def demoRequest : ICreateBooking :=
  { roomId := 1, guestName := "Bob", guestEmail := "bob@mail",
    guestPhone := "080", checkIn := 5, checkOut := 10, adults := 2,
    children := 0 }

/-- **C9**: every booking inserted by `createGuestBooking` carries status
`PENDING` (the schema default; the insert supplies no status), and hence
a committed creation changes the outcome of no availability check — a
booking created through the direct path never blocks a later booking of
the same room and dates. -/
theorem createGuestBooking_inserts_pending (details : ICreateBooking)
    (newBookingId : String) (now : Int) (db : DB) (b : Booking)
    (hok : (createGuestBooking details newBookingId now db).1 = Except.ok b) :
    b.status = PaymentStatus.PENDING ∧
    ∀ (roomId : Nat) (ci co : Int),
      checkAvailability (createGuestBooking details newBookingId now db).2 roomId ci co
        = checkAvailability db roomId ci co := by
  unfold createGuestBooking at *
  by_cases hav : checkAvailability db details.roomId details.checkIn details.checkOut
  · rw [if_pos hav] at hok ⊢
    have hb : b = (insertBooking details newBookingId now db).1 := by
      cases hok
      rfl
    subst hb
    refine ⟨rfl, fun roomId ci co => ?_⟩
    exact checkAvailability_append_nonpaid db _ _ rfl (by simp [insertBooking]) roomId ci co
  · rw [if_neg hav] at hok
    cases hok

/-- Witness for C9: creating the `[5, 10)` request on `dbOnePaid`
succeeds, the stored booking is `PENDING`, and re-running the identical
availability check afterwards still reports the range free. -/
theorem createGuestBooking_inserts_pending_witness :
    (insertBooking demoRequest "bk2" 7 dbOnePaid).1.status = PaymentStatus.PENDING ∧
    checkAvailability (createGuestBooking demoRequest "bk2" 7 dbOnePaid).2 1 5 10
      = checkAvailability dbOnePaid 1 5 10 :=
  ⟨(createGuestBooking_inserts_pending demoRequest "bk2" 7 dbOnePaid _ rfl).1,
   (createGuestBooking_inserts_pending demoRequest "bk2" 7 dbOnePaid _ rfl).2 1 5 10⟩

/-- **C8**: when the availability check has passed, the room exists, and
the external gateway call then fails, `initializePayment` reports
`IntegrationFailure` but the state it leaves is exactly the prior store
plus the provisional booking — which is `PENDING` with
`paymentReference` still unset; the failure rolls nothing back. -/
theorem gateway_failure_keeps_pending (details : ICreateBooking)
    (newBookingId : String) (now : Int)
    (paystackInit : Int → Except Unit (String × String)) (db : DB) (room : Room)
    (havail : checkAvailability db details.roomId details.checkIn details.checkOut = true)
    (hroom : db.rooms.find? (fun r => decide (r.id = details.roomId)) = some room)
    (hgw : paystackInit (amountInKobo details.checkIn details.checkOut room.price)
        = Except.error ()) :
    initializePayment details newBookingId now paystackInit db
      = (Except.error BookingError.IntegrationFailure,
         (insertBooking details newBookingId now db).2) ∧
    (insertBooking details newBookingId now db).1 ∈
      (initializePayment details newBookingId now paystackInit db).2.bookings ∧
    (insertBooking details newBookingId now db).1.status = PaymentStatus.PENDING ∧
    (insertBooking details newBookingId now db).1.paymentReference = none := by
  have hmain : initializePayment details newBookingId now paystackInit db
      = (Except.error BookingError.IntegrationFailure,
         (insertBooking details newBookingId now db).2) := by
    unfold initializePayment
    rw [havail, hroom]
    simp [hgw]
  refine ⟨hmain, ?_, rfl, rfl⟩
  rw [hmain]
  simp [insertBooking]

/-- Witness for C8: with an always-failing gateway, initializing payment
for the `[5, 10)` request on `dbOnePaid` fails with `IntegrationFailure`
yet the new `PENDING` booking (no payment reference) is in the store. -/
theorem gateway_failure_keeps_pending_witness :
    initializePayment demoRequest "bk2" 7 (fun _ => Except.error ()) dbOnePaid
      = (Except.error BookingError.IntegrationFailure,
         (insertBooking demoRequest "bk2" 7 dbOnePaid).2) ∧
    (insertBooking demoRequest "bk2" 7 dbOnePaid).1 ∈
      (initializePayment demoRequest "bk2" 7 (fun _ => Except.error ()) dbOnePaid).2.bookings ∧
    (insertBooking demoRequest "bk2" 7 dbOnePaid).1.status = PaymentStatus.PENDING ∧
    (insertBooking demoRequest "bk2" 7 dbOnePaid).1.paymentReference = none :=
  gateway_failure_keeps_pending demoRequest "bk2" 7 (fun _ => Except.error ())
    dbOnePaid { id := 1, price := 100 } (by decide) (by decide) rfl

/-- **C7**: the charged amount is `ceil` of the day count between
`checkIn` and `checkOut` (any partial day rounded up), times the room's
nightly price, in the gateway's minor unit (scaled by 100): whenever the
millisecond difference lies in `((n-1)·day, n·day]` the computed amount
is `round(n · price · 100)`; for Jan 10 2025 → Jan 13 2025 (UTC epoch
milliseconds) at price 50.00 the computed amount is 15000 minor units,
i.e. 150.00. -/
theorem amount_computation :
    (∀ (ci co : Int) (price : ℚ) (n : Int),
       (n - 1) * msPerDay < co - ci → co - ci ≤ n * msPerDay →
       amountInKobo ci co price = round ((n : ℚ) * price * 100)) ∧
    amountInKobo 1736467200000 1736726400000 50 = 15000 := by
  have hgen : ∀ (ci co : Int) (price : ℚ) (n : Int),
      (n - 1) * msPerDay < co - ci → co - ci ≤ n * msPerDay →
      amountInKobo ci co price = round ((n : ℚ) * price * 100) := by
    intro ci co price n h1 h2
    have hd : (0 : ℚ) < ((msPerDay : Int) : ℚ) := by norm_num [msPerDay]
    have hn : nights ci co = n := by
      unfold nights
      rw [Int.ceil_eq_iff]
      constructor
      · rw [lt_div_iff hd]
        exact_mod_cast h1
      · rw [div_le_iff hd]
        exact_mod_cast h2
    unfold amountInKobo
    rw [hn]
  refine ⟨hgen, ?_⟩
  rw [hgen 1736467200000 1736726400000 50 3 (by norm_num [msPerDay])
    (by norm_num [msPerDay])]
  norm_num [round_eq]

/-- Witness for C7: the Jan 10 → Jan 13 difference is exactly three
days, and the theorem computes `round(3 · 50 · 100)` there. -/
theorem amount_computation_witness :
    ((3 : Int) - 1) * msPerDay < 1736726400000 - 1736467200000 ∧
    (1736726400000 - 1736467200000 : Int) ≤ 3 * msPerDay ∧
    amountInKobo 1736467200000 1736726400000 50 = round ((3 : ℚ) * 50 * 100) :=
  ⟨by norm_num [msPerDay], by norm_num [msPerDay],
   amount_computation.1 1736467200000 1736726400000 50 3
     (by norm_num [msPerDay]) (by norm_num [msPerDay])⟩

/-- **C2** evaluated at the failing input: `dbOnePaid` holds a booking
that is already `PAID` under reference `ref1`; redelivering a correctly
signed `charge.success` event for `ref1` is NOT a safe no-op — the
availability re-check does not exclude the booking itself, so the
booking conflicts with itself, gets flipped to `FAILED`, and the
race-lost error is raised instead of keeping `PAID` silently. -/
theorem paid_webhook_redelivery_marks_failed :
    verifyPaymentAndUpdateBooking hmacDemo stringifyDemo "sk"
        (hmacDemo "sk" (stringifyDemo ⟨"charge.success", ⟨"ref1"⟩⟩))
        ⟨"charge.success", ⟨"ref1"⟩⟩ dbOnePaid
      = (Except.error BookingError.RaceLost,
         { bookings :=
             [{ id := 1, bookingId := "bk1", status := PaymentStatus.FAILED,
                paymentReference := some "ref1", roomId := 1, guestName := "Ada",
                guestEmail := "ada@mail", guestPhone := "070", checkIn := 0,
                checkOut := 5, adults := 1, children := 0, createdAt := 0 }]
           rooms := [{ id := 1, price := 100 }]
           nextId := 2 }) := by
  rfl

/-- `List.find?` returns the element when it is the unique match. -/
theorem find_eq_some_of_unique {α : Type} (l : List α) (p : α → Bool) (x : α)
    (hmem : x ∈ l) (hpx : p x = true) (huniq : ∀ y ∈ l, p y = true → y = x) :
    l.find? p = some x := by
  induction l with
  | nil => cases hmem
  | cons a t ih =>
    by_cases hpa : p a = true
    · have hax : a = x := huniq a (List.mem_cons_self a t) hpa
      rw [List.find?_cons_of_pos _ hpa, hax]
    · have hxa : x ≠ a := fun h => hpa (h ▸ hpx)
      have hxt : x ∈ t := by
        cases hmem with
        | head => exact absurd rfl hxa
        | tail _ h => exact h
      rw [List.find?_cons_of_neg _ hpa]
      exact ih hxt fun y hy hpy => huniq y (List.mem_cons_of_mem a hy) hpy

/-- **C3**: when booking `A` (the `PENDING` holder of the event's payment
reference) has lost its room to a distinct `PAID` booking `B` overlapping
its range, a correctly signed `charge.success` event for that reference
raises the race-lost failure and rewrites the store so that only `A`
changes, and only in its status (now `FAILED`): every other booking —
`B` included — is kept untouched. -/
theorem race_lost_preserves_other_bookings
    (hmacSha512Hex : String → String → String)
    (jsonStringify : WebhookBody → String) (secret signature : String)
    (body : WebhookBody) (db : DB) (A B : Booking)
    (hsig : hmacSha512Hex secret (jsonStringify body) = signature)
    (hevent : body.event = "charge.success")
    (hAmem : A ∈ db.bookings)
    (hApending : A.status = PaymentStatus.PENDING)
    (hAref : A.paymentReference = some body.data.reference)
    (hrefUniq : ∀ b ∈ db.bookings,
      b.paymentReference = some body.data.reference → b = A)
    (hBmem : B ∈ db.bookings) (hBne : B.id ≠ A.id)
    (hBroom : B.roomId = A.roomId) (hBpaid : B.status = PaymentStatus.PAID)
    (hBover : B.checkIn < A.checkOut ∧ B.checkOut > A.checkIn) :
    verifyPaymentAndUpdateBooking hmacSha512Hex jsonStringify secret signature body db
      = (Except.error BookingError.RaceLost,
         { db with
           bookings := db.bookings.map fun b =>
             if b.id = A.id then { b with status := PaymentStatus.FAILED }
             else b }) ∧
    ∀ b ∈ db.bookings, b.id ≠ A.id →
      b ∈ (verifyPaymentAndUpdateBooking hmacSha512Hex jsonStringify secret
            signature body db).2.bookings := by
  have hfind : db.bookings.find?
      (fun b => decide (b.paymentReference = some body.data.reference)) = some A :=
    find_eq_some_of_unique _ _ A hAmem (decide_eq_true hAref)
      fun y hy hpy => hrefUniq y hy (of_decide_eq_true hpy)
  have hunavail : checkAvailability db A.roomId A.checkIn A.checkOut = false := by
    rw [Bool.eq_false_iff]
    intro h
    rw [checkAvailability_eq_true_iff] at h
    exact h B hBmem hBroom hBpaid hBover
  have hmain : verifyPaymentAndUpdateBooking hmacSha512Hex jsonStringify secret
      signature body db
      = (Except.error BookingError.RaceLost,
         { db with
           bookings := db.bookings.map fun b =>
             if b.id = A.id then { b with status := PaymentStatus.FAILED }
             else b }) := by
    unfold verifyPaymentAndUpdateBooking
    rw [if_neg (fun h => h hsig), if_pos hevent, hfind]
    simp only [hunavail, if_pos]
  refine ⟨hmain, fun b hb hne => ?_⟩
  rw [hmain]
  exact List.mem_map.mpr ⟨b, hb, by simp [hne]⟩

/-- Room 1's `PAID` booking `[0, 5)` (id 1) next to a `PENDING` booking
`[0, 5)` (id 2) still holding payment reference `refA`: the race-lost
scenario of the specification. -/
def dbRace : DB :=
  { bookings :=
      [{ id := 1, bookingId := "bk1", status := PaymentStatus.PAID,
         paymentReference := some "ref1", roomId := 1, guestName := "Ada",
         guestEmail := "ada@mail", guestPhone := "070", checkIn := 0,
         checkOut := 5, adults := 1, children := 0, createdAt := 0 },
       { id := 2, bookingId := "bk2", status := PaymentStatus.PENDING,
         paymentReference := some "refA", roomId := 1, guestName := "Bob",
         guestEmail := "bob@mail", guestPhone := "080", checkIn := 0,
         checkOut := 5, adults := 2, children := 0, createdAt := 0 }]
    rooms := [{ id := 1, price := 100 }]
    nextId := 3 }

/-- Witness for C3: delivering the signed success event for `refA` on
`dbRace` raises the race-lost error, fails booking 2, and keeps the
`PAID` booking 1 exactly as it was. -/
theorem race_lost_preserves_other_bookings_witness :
    verifyPaymentAndUpdateBooking hmacDemo stringifyDemo "sk"
        (hmacDemo "sk" (stringifyDemo ⟨"charge.success", ⟨"refA"⟩⟩))
        ⟨"charge.success", ⟨"refA"⟩⟩ dbRace
      = (Except.error BookingError.RaceLost,
         { dbRace with
           bookings := dbRace.bookings.map fun b =>
             if b.id = 2 then { b with status := PaymentStatus.FAILED }
             else b }) :=
  (race_lost_preserves_other_bookings hmacDemo stringifyDemo "sk" _
    ⟨"charge.success", ⟨"refA"⟩⟩ dbRace
    (dbRace.bookings.get ⟨1, by decide⟩) (dbRace.bookings.get ⟨0, by decide⟩)
    rfl rfl (by decide) rfl rfl (by decide) (by decide) (by decide) rfl rfl
    (by decide)).1

/-- When the availability check passes, `createGuestBooking` commits the
insert and returns the new booking. -/
theorem createGuestBooking_of_available (d : ICreateBooking) (nid : String)
    (t : Int) (db : DB)
    (h : checkAvailability db d.roomId d.checkIn d.checkOut = true) :
    createGuestBooking d nid t db
      = (Except.ok (insertBooking d nid t db).1, (insertBooking d nid t db).2) := by
  unfold createGuestBooking
  rw [h]
  rfl

/-- C4 counterexample: on `dbOnePaid` the request `demoRequest` (room 1,
`[5, 10)`, a range overlapping itself since `5 < 10`) is accepted twice
in a row — run sequentially, which is one admissible serialization of
two concurrent requests, both calls succeed and neither ever receives
`Conflict`, contradicting the exactly-one-succeeds claim. -/
theorem overlapping_creates_both_succeed :
    (createGuestBooking demoRequest "bk2" 7 dbOnePaid).1
      = Except.ok (insertBooking demoRequest "bk2" 7 dbOnePaid).1 ∧
    (createGuestBooking demoRequest "bk3" 8
        (createGuestBooking demoRequest "bk2" 7 dbOnePaid).2).1
      = Except.ok (insertBooking demoRequest "bk3" 8
          (createGuestBooking demoRequest "bk2" 7 dbOnePaid).2).1 ∧
    demoRequest.checkIn < demoRequest.checkOut :=
  ⟨rfl, rfl, by decide⟩

/-- **C4 amended**: two `createGuestBooking` requests for the same room
with overlapping (indeed arbitrary) ranges BOTH succeed whenever no
`PAID` booking overlaps either range: the first insert is stored
`PENDING` and `checkAvailability` only counts `PAID` bookings, so the
first request never blocks the second and `Conflict` arises only from
an overlapping `PAID` booking; with non-overlapping ranges both succeed
likewise. -/
theorem createGuestBooking_pending_never_blocks (d1 d2 : ICreateBooking)
    (id1 id2 : String) (t1 t2 : Int) (db : DB)
    (h1 : checkAvailability db d1.roomId d1.checkIn d1.checkOut = true)
    (h2 : checkAvailability db d2.roomId d2.checkIn d2.checkOut = true) :
    (createGuestBooking d1 id1 t1 db).1
      = Except.ok (insertBooking d1 id1 t1 db).1 ∧
    (createGuestBooking d2 id2 t2 (createGuestBooking d1 id1 t1 db).2).1
      = Except.ok (insertBooking d2 id2 t2 (createGuestBooking d1 id1 t1 db).2).1 := by
  have e1 := createGuestBooking_of_available d1 id1 t1 db h1
  have h2b : checkAvailability (createGuestBooking d1 id1 t1 db).2 d2.roomId
      d2.checkIn d2.checkOut = true := by
    rw [e1]
    exact (checkAvailability_append_nonpaid db _ _ rfl (by simp [insertBooking])
      d2.roomId d2.checkIn d2.checkOut).trans h2
  have e2 := createGuestBooking_of_available d2 id2 t2
    (createGuestBooking d1 id1 t1 db).2 h2b
  exact ⟨by rw [e1], by rw [e2]⟩

/-- Witness for C4's amended statement: both sequential creations of the
(identical, hence overlapping) `[5, 10)` request on `dbOnePaid` return
the inserted booking. -/
theorem createGuestBooking_pending_never_blocks_witness :
    (createGuestBooking demoRequest "bk2" 7 dbOnePaid).1
      = Except.ok (insertBooking demoRequest "bk2" 7 dbOnePaid).1 ∧
    (createGuestBooking demoRequest "bk3" 8
        (createGuestBooking demoRequest "bk2" 7 dbOnePaid).2).1
      = Except.ok (insertBooking demoRequest "bk3" 8
          (createGuestBooking demoRequest "bk2" 7 dbOnePaid).2).1 :=
  createGuestBooking_pending_never_blocks demoRequest demoRequest "bk2" "bk3"
    7 8 dbOnePaid (by decide) (by decide)

/-- One committed core operation. The external interactions an operation
performs (gateway response, webhook signature and payload) are carried
as data, so a list of `Op` fixes a whole committed history. -/
inductive Op where
  | create (details : ICreateBooking) (newBookingId : String) (now : Int)
  | initPay (details : ICreateBooking) (newBookingId : String) (now : Int)
      (paystackInit : Int → Except Unit (String × String))
  | webhook (signature : String) (body : WebhookBody)
  | adminUpdate (id : Nat) (d : IUpdateBookingByAdmin)
  | adminDelete (id : Nat)

/-- Recognizer for the admin update write. -/
def Op.isAdminUpdate : Op → Bool
  | Op.adminUpdate _ _ => true
  | _ => false

/-- The committed state an operation leaves behind (results discarded). -/
def applyOp (hmacSha512Hex : String → String → String)
    (jsonStringify : WebhookBody → String) (paystackSecretKey : String)
    (db : DB) : Op → DB
  | Op.create details newBookingId now =>
      (createGuestBooking details newBookingId now db).2
  | Op.initPay details newBookingId now paystackInit =>
      (initializePayment details newBookingId now paystackInit db).2
  | Op.webhook signature body =>
      (verifyPaymentAndUpdateBooking hmacSha512Hex jsonStringify
        paystackSecretKey signature body db).2
  | Op.adminUpdate id d => (updateBookingByAdmin id d db).2
  | Op.adminDelete id => (deleteBookingByAdmin id db).2

/-- The state after a sequence of committed operations. -/
def runOps (hmacSha512Hex : String → String → String)
    (jsonStringify : WebhookBody → String) (paystackSecretKey : String)
    (db : DB) (ops : List Op) : DB :=
  ops.foldl (applyOp hmacSha512Hex jsonStringify paystackSecretKey) db

/-- Ids are injective on a store whose id projection is duplicate-free. -/
theorem booking_eq_of_id_eq (l : List Booking)
    (hnodup : (l.map Booking.id).Nodup) (x y : Booking)
    (hx : x ∈ l) (hy : y ∈ l) (hxy : x.id = y.id) : x = y :=
  List.inj_on_of_nodup_map hnodup hx hy hxy

/-- Appending a row that is not `PAID` preserves the non-overlap
contract. -/
theorem paidNonOverlapList_append (l : List Booking) (nb : Booking)
    (hnp : nb.status ≠ PaymentStatus.PAID) (h : paidNonOverlapList l) :
    paidNonOverlapList (l ++ [nb]) := by
  intro b1 hb1 b2 hb2 hne hroom h1 h2
  rcases List.mem_append.1 hb1 with hb1 | hb1
  · rcases List.mem_append.1 hb2 with hb2 | hb2
    · exact h b1 hb1 b2 hb2 hne hroom h1 h2
    · rw [List.mem_singleton.1 hb2] at h2
      exact absurd h2 hnp
  · rw [List.mem_singleton.1 hb1] at h1
    exact absurd h1 hnp

/-- A per-row rewrite that keeps id, room and dates, and does not newly
mark any row `PAID`, preserves the non-overlap contract. -/
theorem paidNonOverlapList_map (l : List Booking) (f : Booking → Booking)
    (hid : ∀ b, (f b).id = b.id) (hroom : ∀ b, (f b).roomId = b.roomId)
    (hci : ∀ b, (f b).checkIn = b.checkIn)
    (hco : ∀ b, (f b).checkOut = b.checkOut)
    (hst : ∀ b, (f b).status = PaymentStatus.PAID →
      b.status = PaymentStatus.PAID)
    (h : paidNonOverlapList l) : paidNonOverlapList (l.map f) := by
  intro b1 hb1 b2 hb2 hne hroom12 h1 h2
  rcases List.mem_map.1 hb1 with ⟨x1, hx1, rfl⟩
  rcases List.mem_map.1 hb2 with ⟨x2, hx2, rfl⟩
  rw [hid, hid] at hne
  rw [hroom, hroom] at hroom12
  have hres := h x1 hx1 x2 hx2 hne hroom12 (hst x1 h1) (hst x2 h2)
  rw [overlapping, hci, hco, hci, hco]
  exact hres

/-- Removing rows preserves the non-overlap contract. -/
theorem paidNonOverlapList_filter (l : List Booking) (p : Booking → Bool)
    (h : paidNonOverlapList l) : paidNonOverlapList (l.filter p) :=
  fun b1 hb1 b2 hb2 hne hroom h1 h2 =>
    h b1 (List.mem_of_mem_filter hb1) b2 (List.mem_of_mem_filter hb2)
      hne hroom h1 h2

/-- Marking `PAID` one row whose range the availability check has just
cleared preserves the non-overlap contract. -/
theorem paidNonOverlapList_set_paid (db : DB) (A : Booking)
    (hmem : A ∈ db.bookings)
    (hnodup : (db.bookings.map Booking.id).Nodup)
    (havail : checkAvailability db A.roomId A.checkIn A.checkOut = true)
    (hinv : paidNonOverlap db) :
    paidNonOverlapList (db.bookings.map fun b =>
      if b.id = A.id then { b with status := PaymentStatus.PAID } else b) := by
  rw [checkAvailability_eq_true_iff] at havail
  have gid : ∀ b : Booking,
      (if b.id = A.id then { b with status := PaymentStatus.PAID } else b).id
        = b.id := by
    intro b
    by_cases hb : b.id = A.id <;> simp [hb]
  have groom : ∀ b : Booking,
      (if b.id = A.id then { b with status := PaymentStatus.PAID } else b).roomId
        = b.roomId := by
    intro b
    by_cases hb : b.id = A.id <;> simp [hb]
  have gci : ∀ b : Booking,
      (if b.id = A.id then { b with status := PaymentStatus.PAID } else b).checkIn
        = b.checkIn := by
    intro b
    by_cases hb : b.id = A.id <;> simp [hb]
  have gco : ∀ b : Booking,
      (if b.id = A.id then { b with status := PaymentStatus.PAID } else b).checkOut
        = b.checkOut := by
    intro b
    by_cases hb : b.id = A.id <;> simp [hb]
  have gkeep : ∀ b : Booking, b.id ≠ A.id →
      (if b.id = A.id then { b with status := PaymentStatus.PAID } else b) = b := by
    intro b hb
    rw [if_neg hb]
  intro b1 hb1 b2 hb2 hne hroom12 h1 h2
  rcases List.mem_map.1 hb1 with ⟨x1, hx1, rfl⟩
  rcases List.mem_map.1 hb2 with ⟨x2, hx2, rfl⟩
  rw [gid, gid] at hne
  rw [groom, groom] at hroom12
  rw [overlapping, gci x1, gco x1, gci x2, gco x2]
  by_cases e1 : x1.id = A.id
  · have hx1A : x1 = A := booking_eq_of_id_eq db.bookings hnodup x1 A hx1 hmem e1
    rw [hx1A] at hne hroom12 ⊢
    have e2 : x2.id ≠ A.id := fun h => hne h.symm
    rw [gkeep x2 e2] at h2
    have hno := havail x2 hx2 hroom12.symm h2
    exact fun hov => hno ⟨hov.2, hov.1⟩
  · rw [gkeep x1 e1] at h1
    by_cases e2 : x2.id = A.id
    · have hx2A : x2 = A := booking_eq_of_id_eq db.bookings hnodup x2 A hx2 hmem e2
      rw [hx2A] at hroom12 ⊢
      exact havail x1 hx1 hroom12 h1
    · rw [gkeep x2 e2] at h2
      have hres := hinv x1 hx1 x2 hx2 hne hroom12 h1 h2
      rw [overlapping] at hres
      exact hres

/-- A per-row rewrite that keeps ids preserves well-formedness. -/
theorem wfDB_map (db : DB) (f : Booking → Booking)
    (hid : ∀ b, (f b).id = b.id) (hwf : wfDB db) :
    wfDB { db with bookings := db.bookings.map f } := by
  constructor
  · show ((db.bookings.map f).map Booking.id).Nodup
    rw [List.map_map]
    have e : db.bookings.map (Booking.id ∘ f) = db.bookings.map Booking.id :=
      List.map_congr_left fun b _ => hid b
    rw [e]
    exact hwf.1
  · intro b hb
    rcases List.mem_map.1 hb with ⟨x, hx, rfl⟩
    show (f x).id < db.nextId
    rw [hid]
    exact hwf.2 x hx

/-- The provisional insert keeps the store well-formed and, being
`PENDING`, keeps the non-overlap contract. -/
theorem insert_preserves (details : ICreateBooking) (newBookingId : String)
    (now : Int) (db : DB) (hwf : wfDB db) (hinv : paidNonOverlap db) :
    wfDB (insertBooking details newBookingId now db).2 ∧
    paidNonOverlap (insertBooking details newBookingId now db).2 := by
  refine ⟨⟨?_, ?_⟩, ?_⟩
  · show ((db.bookings ++ [(insertBooking details newBookingId now db).1]).map
      Booking.id).Nodup
    rw [List.map_append]
    refine List.Nodup.append hwf.1 (List.nodup_singleton _) ?_
    intro a ha hb
    rcases List.mem_map.1 ha with ⟨x, hx, rfl⟩
    have hxid : x.id = db.nextId := by
      simpa [insertBooking] using hb
    exact absurd (hwf.2 x hx) (by omega)
  · intro b hb
    show b.id < db.nextId + 1
    rcases List.mem_append.1 hb with hb | hb
    · have := hwf.2 b hb
      omega
    · have : b.id = db.nextId := by
        simpa [insertBooking] using List.mem_singleton.1 hb ▸ rfl
      omega
  · exact paidNonOverlapList_append db.bookings _ (by simp [insertBooking]) hinv

/-- Every committed core operation except the admin update keeps the
store well-formed and preserves the non-overlap contract. -/
theorem applyOp_preserves (hmacSha512Hex : String → String → String)
    (jsonStringify : WebhookBody → String) (paystackSecretKey : String)
    (db : DB) (op : Op) (hwf : wfDB db) (hinv : paidNonOverlap db)
    (hop : op.isAdminUpdate = false) :
    wfDB (applyOp hmacSha512Hex jsonStringify paystackSecretKey db op) ∧
    paidNonOverlap (applyOp hmacSha512Hex jsonStringify paystackSecretKey db op) := by
  cases op with
  | create details newBookingId now =>
    show wfDB (createGuestBooking details newBookingId now db).2 ∧
      paidNonOverlap (createGuestBooking details newBookingId now db).2
    unfold createGuestBooking
    by_cases hav : checkAvailability db details.roomId details.checkIn
        details.checkOut = true
    · rw [if_pos hav]
      exact insert_preserves details newBookingId now db hwf hinv
    · rw [if_neg hav]
      exact ⟨hwf, hinv⟩
  | initPay details newBookingId now paystackInit =>
    show wfDB (initializePayment details newBookingId now paystackInit db).2 ∧
      paidNonOverlap (initializePayment details newBookingId now paystackInit db).2
    unfold initializePayment
    by_cases hav : checkAvailability db details.roomId details.checkIn
        details.checkOut = true
    · rw [if_pos hav]
      cases hroomf : db.rooms.find? (fun r => decide (r.id = details.roomId)) with
      | none => exact ⟨hwf, hinv⟩
      | some room =>
        dsimp only
        cases hgw : paystackInit
            (amountInKobo details.checkIn details.checkOut room.price) with
        | error e =>
          exact insert_preserves details newBookingId now db hwf hinv
        | ok handle =>
          dsimp only
          have hins := insert_preserves details newBookingId now db hwf hinv
          refine ⟨wfDB_map _ _ ?_ hins.1,
            paidNonOverlapList_map _ _ ?_ ?_ ?_ ?_ ?_ hins.2⟩
          all_goals intro b
          all_goals by_cases hb :
            b.id = (insertBooking details newBookingId now db).1.id <;> simp [hb]
    · rw [if_neg hav]
      exact ⟨hwf, hinv⟩
  | webhook signature body =>
    show wfDB (verifyPaymentAndUpdateBooking hmacSha512Hex jsonStringify
        paystackSecretKey signature body db).2 ∧
      paidNonOverlap (verifyPaymentAndUpdateBooking hmacSha512Hex jsonStringify
        paystackSecretKey signature body db).2
    unfold verifyPaymentAndUpdateBooking
    by_cases hsig : hmacSha512Hex paystackSecretKey (jsonStringify body) ≠ signature
    · rw [if_pos hsig]
      exact ⟨hwf, hinv⟩
    · rw [if_neg hsig]
      by_cases hev : body.event = "charge.success"
      · rw [if_pos hev]
        cases hfind : db.bookings.find?
            (fun b => decide (b.paymentReference = some body.data.reference)) with
        | none => exact ⟨hwf, hinv⟩
        | some booking =>
          dsimp only
          have hbmem : booking ∈ db.bookings := List.mem_of_find?_eq_some hfind
          by_cases hav : checkAvailability db booking.roomId booking.checkIn
              booking.checkOut = false
          · rw [if_pos hav]
            refine ⟨wfDB_map db _ ?_ hwf,
              paidNonOverlapList_map db.bookings _ ?_ ?_ ?_ ?_ ?_ hinv⟩
            all_goals intro b
            all_goals by_cases hb : b.id = booking.id <;> simp [hb]
          · rw [if_neg hav]
            have hav2 : checkAvailability db booking.roomId booking.checkIn
                booking.checkOut = true := by
              revert hav
              cases checkAvailability db booking.roomId booking.checkIn
                booking.checkOut <;> simp
            exact ⟨wfDB_map db _
                (fun b => by by_cases hb : b.id = booking.id <;> simp [hb]) hwf,
              paidNonOverlapList_set_paid db booking hbmem hwf.1 hav2 hinv⟩
      · rw [if_neg hev]
        exact ⟨hwf, hinv⟩
  | adminUpdate id d =>
    simp [Op.isAdminUpdate] at hop
  | adminDelete id =>
    show wfDB (deleteBookingByAdmin id db).2 ∧
      paidNonOverlap (deleteBookingByAdmin id db).2
    unfold deleteBookingByAdmin
    cases hfind : db.bookings.find? (fun b => decide (b.id = id)) with
    | none => exact ⟨hwf, hinv⟩
    | some b =>
      refine ⟨⟨?_, ?_⟩, ?_⟩
      · show (((db.bookings.filter fun x => decide (x.id ≠ id)).map Booking.id)).Nodup
        exact List.Nodup.sublist
          ((db.bookings.filter_sublist).map Booking.id) hwf.1
      · intro x hx
        exact hwf.2 x (List.mem_of_mem_filter hx)
      · exact paidNonOverlapList_filter db.bookings _ hinv

/-- The invariant holds after any sequence of admin-update-free committed
operations starting from a well-formed store that satisfies it. -/
theorem core_ops_preserve_paid_non_overlap_aux
    (hmacSha512Hex : String → String → String)
    (jsonStringify : WebhookBody → String) (paystackSecretKey : String)
    (ops : List Op) (db : DB) (hwf : wfDB db) (hinv : paidNonOverlap db)
    (hno : ∀ op ∈ ops, op.isAdminUpdate = false) :
    wfDB (runOps hmacSha512Hex jsonStringify paystackSecretKey db ops) ∧
    paidNonOverlap (runOps hmacSha512Hex jsonStringify paystackSecretKey db ops) := by
  induction ops generalizing db with
  | nil => exact ⟨hwf, hinv⟩
  | cons op t ih =>
    have hstep := applyOp_preserves hmacSha512Hex jsonStringify paystackSecretKey
      db op hwf hinv (hno op (List.mem_cons_self op t))
    exact ih _ hstep.1 hstep.2 fun o ho => hno o (List.mem_cons_of_mem op ho)

/-- **C1 amended**: for every room, after every sequence of committed
core operations drawn from `createGuestBooking`, `initializePayment`,
`verifyPaymentAndUpdateBooking` and the admin delete — i.e. excluding
the unconditional admin update, which the counterexample shows can break
the contract — no two `PAID` bookings on that room have overlapping
half-open `[checkIn, checkOut)` intervals, starting from any well-formed
store satisfying the contract. -/
theorem core_ops_preserve_paid_non_overlap
    (hmacSha512Hex : String → String → String)
    (jsonStringify : WebhookBody → String) (paystackSecretKey : String)
    (db : DB) (ops : List Op) (hwf : wfDB db) (hinv : paidNonOverlap db)
    (hno : ∀ op ∈ ops, op.isAdminUpdate = false) :
    paidNonOverlap (runOps hmacSha512Hex jsonStringify paystackSecretKey db ops) :=
  (core_ops_preserve_paid_non_overlap_aux hmacSha512Hex jsonStringify
    paystackSecretKey ops db hwf hinv hno).2

/-- An empty store with a single room. -/
def db0 : DB :=
  { bookings := [], rooms := [{ id := 1, price := 100 }], nextId := 1 }

/-- A guest request for room 1 over `[0, 10)`. -/
def req1 : ICreateBooking :=
  { roomId := 1, guestName := "Ada", guestEmail := "ada@mail",
    guestPhone := "070", checkIn := 0, checkOut := 10, adults := 1,
    children := 0 }

/-- A guest request for room 1 over `[10, 20)`, back-to-back with `req1`. -/
def req2 : ICreateBooking :=
  { roomId := 1, guestName := "Bob", guestEmail := "bob@mail",
    guestPhone := "080", checkIn := 10, checkOut := 20, adults := 2,
    children := 0 }

/-- A committed history without admin updates: two back-to-back bookings
are initialized and then confirmed by correctly signed webhooks. -/
def opsSafe : List Op :=
  [Op.initPay req1 "bk1" 0 (fun _ => Except.ok ("url", "ref1")),
   Op.webhook "sk|charge.success,ref1" ⟨"charge.success", ⟨"ref1"⟩⟩,
   Op.initPay req2 "bk2" 1 (fun _ => Except.ok ("url", "ref2")),
   Op.webhook "sk|charge.success,ref2" ⟨"charge.success", ⟨"ref2"⟩⟩]

/-- The same history followed by one admin update that drags the second
`PAID` booking onto the first one's dates. -/
def opsBreak : List Op :=
  opsSafe ++ [Op.adminUpdate 2 { checkIn := some 0, checkOut := some 10 }]

/-- C1 counterexample: the committed sequence `opsBreak` — payments
initialized and confirmed for `[0, 10)` and `[10, 20)` on room 1, then
`updateBookingByAdmin` moving the second `PAID` booking to `[0, 10)` —
ends with two overlapping `PAID` bookings on room 1: the admin update
write performs no availability check, so including it among the
committed core operations falsifies the invariant (which does hold up
to just before that final update). -/
theorem admin_update_breaks_paid_non_overlap :
    paidNonOverlap (runOps hmacDemo stringifyDemo "sk" db0 opsSafe) ∧
    ¬ paidNonOverlap (runOps hmacDemo stringifyDemo "sk" db0 opsBreak) := by
  constructor <;> decide

/-- Witness for C1's amended statement: the admin-update-free history
`opsSafe` keeps the invariant from the well-formed empty store. -/
theorem core_ops_preserve_paid_non_overlap_witness :
    wfDB db0 ∧ paidNonOverlap db0 ∧
    paidNonOverlap (runOps hmacDemo stringifyDemo "sk" db0 opsSafe) :=
  ⟨by decide, by decide,
   core_ops_preserve_paid_non_overlap hmacDemo stringifyDemo "sk" db0 opsSafe
     (by decide) (by decide) (by decide)⟩

end Plumhouse
